import Mathlib

/-!
Shallow embedding of the Step 3 preprocessing / resampling pipeline of
src/main_app.py (function main, the branch for Step 3, lines 116-183),
together with the session-state and filesystem behaviour surrounding it.

Modelling decisions, each tied to a line of the source:

* line 124: pd.to_datetime(df['Date'], errors='coerce') turns each raw
  date cell into either a timestamp or NaT.  We model the raw date cell
  as Option Nat (minutes since an epoch that starts at midnight): some t
  is a parsed timestamp, none is NaT.
* line 125: df.dropna(subset=['Date']) removes NaT rows.
* lines 128-140: the aggregation map is hardcoded: User_ID and Age
  (id_cols) and Gender, Height, Weight (static_cols) aggregate by
  'first'; every other numeric column by 'mean'; everything else by
  'first'.  We fix a representative column set matching the health CSVs
  the app targets: User_ID, Age (ingested integers), Gender (string),
  Height, Weight, Heart_Rate, Calories (numbers), Workout_Type (string).
  Heart_Rate and Calories are the 'mean' columns; pandas mean and first
  both skip nulls inside a cell.
* line 143: df.sort_values('Date').set_index('Date').resample('H')
  builds one global hourly grid from the floor-hour of the smallest
  date to the floor-hour of the largest date, over the whole frame --
  there is no groupby on User_ID.  Rows are binned by the floor of
  their timestamp at one hour.  pandas sort_values has an unspecified
  order on ties; we use a stable insertion sort (ties keep input order).
* lines 146-147: resampled[num_cols].interpolate(method='linear') fills
  a null at position i with the linear blend of the nearest non-null
  neighbours (positionally; the grid is equally spaced), pads nulls
  after the last non-null with that value, and leaves leading nulls.
  Numeric columns are the id, static-numeric and mean columns.
* line 148: resampled.ffill().bfill() forward-fills then backward-fills
  every column (strings included).
* lines 151-153: resampled[col].astype(int) for User_ID and Age:
  truncates each float toward zero; raises when a null remains
  (pandas cannot convert non-finite values to int).
* lines 156-157: os.makedirs('models') when the directory is missing --
  a filesystem effect, modelled as an explicit effect list.
* line 160: resampled['Date'].dt.hour is the hour of day of the grid
  timestamp, i.e. the grid hour modulo 24.
* lines 120 and 169: the pipeline works on a copy of
  st.session_state['raw_df'] and stores the result in
  st.session_state['cleaned_df']; the raw frame is never written.

Numbers are embedded as Rat; the claims under study only involve values
at which double-precision arithmetic is exact.
-/

namespace FitPulse

/-- One raw CSV row after pd.to_datetime(..., errors='coerce') on the
Date column (line 124): date is none when the timestamp failed to
parse.  User_ID and Age are ingested as integers; measured and static
numeric fields as rationals; Gender and Workout_Type as strings.  Any
cell may be missing. -/
structure RawRecord where
  date : Option Nat
  user_id : Option Int
  age : Option Int
  gender : Option String
  height : Option Rat
  weight : Option Rat
  heart_rate : Option Rat
  calories : Option Rat
  workout_type : Option String
deriving DecidableEq, Repr

/-- A row that survived dropna(subset=['Date']) (line 125): the date is
a definite timestamp in minutes. -/
structure DatedRecord where
  date : Nat
  user_id : Option Int
  age : Option Int
  gender : Option String
  height : Option Rat
  weight : Option Rat
  heart_rate : Option Rat
  calories : Option Rat
  workout_type : Option String
deriving DecidableEq, Repr

/-- Line 125: drop the rows whose Date failed to parse. -/
def dropUnparsable (raw : List RawRecord) : List DatedRecord :=
  raw.filterMap fun r =>
    r.date.map fun t =>
      { date := t, user_id := r.user_id, age := r.age, gender := r.gender,
        height := r.height, weight := r.weight, heart_rate := r.heart_rate,
        calories := r.calories, workout_type := r.workout_type }

/-- Insert a record into a date-sorted list, before any record with an
equal or later date (stable insertion used by sortByDate). -/
def insertByDate (r : DatedRecord) : List DatedRecord → List DatedRecord
  | [] => [r]
  | x :: xs => if x.date < r.date then x :: insertByDate r xs else r :: x :: xs

/-- Line 143, sort_values('Date'): stable ascending sort by date. -/
def sortByDate (l : List DatedRecord) : List DatedRecord :=
  l.foldr insertByDate []

/-- The rows that take part in resampling: parsed and date-sorted
(lines 124-125 and 143). -/
def survivors (raw : List RawRecord) : List DatedRecord :=
  sortByDate (dropUnparsable raw)

/-- resample('H') bins a timestamp (minutes) by its floor hour. -/
def floorHour (t : Nat) : Nat := t / 60

/-- The floor hours of all surviving rows. -/
def hourList (rows : List DatedRecord) : List Nat :=
  rows.map fun r => floorHour r.date

/-- Minimum of a list of naturals, none on the empty list. -/
def foldMin : List Nat → Option Nat
  | [] => none
  | x :: xs =>
    match foldMin xs with
    | none => some x
    | some m => some (min x m)

/-- Maximum of a list of naturals, none on the empty list. -/
def foldMax : List Nat → Option Nat
  | [] => none
  | x :: xs =>
    match foldMax xs with
    | none => some x
    | some m => some (max x m)

/-- First hour of the resampling grid (floor hour of the earliest
surviving date). -/
def gridStart (rows : List DatedRecord) : Nat :=
  (foldMin (hourList rows)).getD 0

/-- Last hour of the resampling grid (floor hour of the latest
surviving date). -/
def gridEnd (rows : List DatedRecord) : Nat :=
  (foldMax (hourList rows)).getD 0

/-- Line 143: the hourly grid spans the floor hour of the global
minimum date to the floor hour of the global maximum date, one bin per
hour, over the whole frame (no grouping by entity). -/
def gridHours (rows : List DatedRecord) : List Nat :=
  match foldMin (hourList rows), foldMax (hourList rows) with
  | some a, some b => List.range' a (b + 1 - a)
  | _, _ => []

/-- The rows binned into the grid cell of hour h, in date order. -/
def cellRecords (rows : List DatedRecord) (h : Nat) : List DatedRecord :=
  rows.filter fun r => floorHour r.date == h

/-- pandas groupby 'first': the first non-null value, none when the
cell has no non-null value. -/
def firstVal (xs : List (Option α)) : Option α :=
  (xs.filterMap id).head?

/-- pandas groupby 'mean': the arithmetic mean of the non-null values,
none when the cell has no non-null value. -/
def meanVal (xs : List (Option Rat)) : Option Rat :=
  let v := xs.filterMap id
  if v.length = 0 then none else some (v.sum / (v.length : Rat))

/-- Lines 128-143: one aggregated column produced with the 'first'
reduction, one cell per grid hour. -/
def aggFirst (rows : List DatedRecord) (proj : DatedRecord → Option α) :
    List (Option α) :=
  (gridHours rows).map fun h => firstVal ((cellRecords rows h).map proj)

/-- Lines 128-143: one aggregated column produced with the 'mean'
reduction, one cell per grid hour. -/
def aggMean (rows : List DatedRecord) (proj : DatedRecord → Option Rat) :
    List (Option Rat) :=
  (gridHours rows).map fun h => meanVal ((cellRecords rows h).map proj)

/-- The positions of a column that hold a value, with those values, in
position order. -/
def somePositions (v : List (Option Rat)) : List (Nat × Rat) :=
  (List.range v.length).filterMap fun j =>
    match v[j]? with
    | some (some a) => some (j, a)
    | _ => none

/-- Nearest non-null position strictly before i. -/
def lastSomeBefore (v : List (Option Rat)) (i : Nat) : Option (Nat × Rat) :=
  ((somePositions v).filter fun p => p.1 < i).getLast?

/-- Nearest non-null position strictly after i. -/
def firstSomeAfter (v : List (Option Rat)) (i : Nat) : Option (Nat × Rat) :=
  ((somePositions v).filter fun p => i < p.1).head?

/-- Line 147, interpolate(method='linear') at one position: keep an
existing value; fill a null bracketed by non-null neighbours with their
linear blend weighted by position distance; pad a null after the last
non-null with that value; leave a leading null. -/
def interpAt (v : List (Option Rat)) (i : Nat) : Option Rat :=
  match v[i]? with
  | some (some x) => some x
  | _ =>
    match lastSomeBefore v i, firstSomeAfter v i with
    | some (j, a), some (k, b) =>
        some (a + (b - a) * (((i : Rat) - (j : Rat)) / ((k : Rat) - (j : Rat))))
    | some (_, a), none => some a
    | _, _ => none

/-- Line 147: interpolate a whole numeric column. -/
def interpolateList (v : List (Option Rat)) : List (Option Rat) :=
  (List.range v.length).map fun i => interpAt v i

/-- Forward fill with a carried last-seen value. -/
def ffillAux (last : Option α) : List (Option α) → List (Option α)
  | [] => []
  | x :: xs =>
    match x with
    | some a => some a :: ffillAux (some a) xs
    | none => last :: ffillAux last xs

/-- Line 148, ffill(): propagate the last non-null value forward. -/
def ffillList (v : List (Option α)) : List (Option α) :=
  ffillAux none v

/-- Line 148, bfill(): propagate the next non-null value backward. -/
def bfillList (v : List (Option α)) : List (Option α) :=
  (ffillAux none v.reverse).reverse

/-- Lines 146-148 on a numeric column: interpolate, then forward fill,
then backward fill. -/
def numFill (v : List (Option Rat)) : List (Option Rat) :=
  bfillList (ffillList (interpolateList v))

/-- Line 148 on a non-numeric column: forward fill then backward fill
(interpolate does not touch it). -/
def strFill (v : List (Option α)) : List (Option α) :=
  bfillList (ffillList v)

/-- astype(int) on a float: C-style truncation toward zero. -/
def truncToInt (q : Rat) : Int :=
  if 0 ≤ q then ⌊q⌋ else ⌈q⌉

/-- Equality of Except values is decidable when both components are. -/
instance exceptDecEq [DecidableEq ε] [DecidableEq α] : DecidableEq (Except ε α)
  | Except.error e, Except.error f =>
    if h : e = f then isTrue (congrArg Except.error h)
    else isFalse fun hh => h (Except.error.inj hh)
  | Except.error _, Except.ok _ => isFalse fun hh => Except.noConfusion hh
  | Except.ok _, Except.error _ => isFalse fun hh => Except.noConfusion hh
  | Except.ok x, Except.ok y =>
    if h : x = y then isTrue (congrArg Except.ok h)
    else isFalse fun hh => h (Except.ok.inj hh)

/-- The errors the pipeline can actually raise.  The only failure site
in lines 120-160 is astype(int) on lines 151-153, which pandas rejects
when the column still holds a null.  There is no SchemaError anywhere
in the source. -/
inductive PipelineError where
  | astypeNaN : String → PipelineError
deriving DecidableEq, Repr

/-- Lines 151-153: force an id column back to integers, failing like
pandas does when a null remains. -/
def astypeIntCol (colName : String) (v : List (Option Rat)) :
    Except PipelineError (List Int) :=
  if v.all (fun x => x.isSome) then
    Except.ok (v.map fun x => truncToInt (x.getD 0))
  else
    Except.error (PipelineError.astypeNaN colName)

/-- The cleaned frame stored into st.session_state['cleaned_df']
(line 169), restricted to the columns the claims are about: the grid
Date column, the integer-hardened id columns, the filled static,
measured and categorical columns and the Hour feature of line 160. -/
structure CleanFrame where
  date : List Nat
  user_id : List Int
  age : List Int
  gender : List (Option String)
  height : List (Option Rat)
  weight : List (Option Rat)
  heart_rate : List (Option Rat)
  calories : List (Option Rat)
  workout_type : List (Option String)
  hour : List Nat
deriving DecidableEq, Repr

/-- The User_ID column viewed as rationals during the numeric passes:
pandas holds the integer column as float64 once any grid cell is empty,
so aggregation, interpolation and the fills all act on floats. -/
def uidProj (r : DatedRecord) : Option Rat :=
  r.user_id.map fun i => (i : Rat)

/-- The Age column viewed as rationals during the numeric passes. -/
def ageProj (r : DatedRecord) : Option Rat :=
  r.age.map fun i => (i : Rat)

/-- Lines 124-160: the whole Step 3 transform.  Every column is carried
through aggregation onto the single global hourly grid, numeric columns
are interpolated, every column is forward- then backward-filled, and
the id columns are truncated back to integers (raising when impossible,
exactly as astype(int) does). -/
def pipeline (raw : List RawRecord) : Except PipelineError CleanFrame :=
  match astypeIntCol "User_ID" (numFill (aggFirst (survivors raw) uidProj)) with
  | Except.error e => Except.error e
  | Except.ok uid =>
    match astypeIntCol "Age" (numFill (aggFirst (survivors raw) ageProj)) with
    | Except.error e => Except.error e
    | Except.ok ag =>
      Except.ok
        { date := gridHours (survivors raw)
          , user_id := uid
          , age := ag
          , gender := strFill (aggFirst (survivors raw) fun r => r.gender)
          , height := numFill (aggFirst (survivors raw) fun r => r.height)
          , weight := numFill (aggFirst (survivors raw) fun r => r.weight)
          , heart_rate := numFill (aggMean (survivors raw) fun r => r.heart_rate)
          , calories := numFill (aggMean (survivors raw) fun r => r.calories)
          , workout_type := strFill (aggFirst (survivors raw) fun r => r.workout_type)
          , hour := (gridHours (survivors raw)).map fun h => h % 24 }

/-- The relevant slots of st.session_state. -/
structure SessionState where
  raw_df : List RawRecord
  cleaned_df : Option CleanFrame
deriving DecidableEq, Repr

/-- Observable filesystem operations of Step 3. -/
inductive FsEffect where
  | makedirs : String → FsEffect
deriving DecidableEq, Repr

/-- Lines 156-157: os.makedirs('models') runs exactly when the
directory does not already exist. -/
def pathEffects (modelsDirExists : Bool) : List FsEffect :=
  if modelsDirExists then [] else [FsEffect.makedirs "models"]

/-- The Step 3 button handler (lines 119-170) as a state transformer:
it reads st.session_state['raw_df'] through a copy, writes the cleaned
frame into st.session_state['cleaned_df'] on success, and performs the
models-directory creation; on an astype failure (lines 151-153, raised
before lines 156-157) the session is left unchanged and no filesystem
effect happens. -/
def runStep3 (modelsDirExists : Bool) (s : SessionState) :
    SessionState × List FsEffect :=
  match pipeline s.raw_df with
  | Except.ok f =>
      ({ raw_df := s.raw_df, cleaned_df := some f }, pathEffects modelsDirExists)
  | Except.error _ =>
      ({ raw_df := s.raw_df, cleaned_df := s.cleaned_df }, [])

/-! Concrete datasets used by the claim theorems.  Timestamps are in
minutes: 600 is 10:00, 630 is 10:30, 660 is 11:00, 720 is 12:00. -/

/-- Build a raw record from its nine cells. -/
def mkR (d : Option Nat) (u a : Option Int) (g : Option String)
    (h w hr cal : Option Rat) (wt : Option String) : RawRecord :=
  ⟨d, u, a, g, h, w, hr, cal, wt⟩

/-- Two entities, 1 and 2, with readings inside the same hour. -/
def tc1 : List RawRecord :=
  [ mkR (some 600) (some 1) (some 30) (some "F") (some 150) (some 50)
      (some 60) (some 100) (some "run")
  , mkR (some 630) (some 2) (some 40) (some "M") (some 180) (some 80)
      (some 100) (some 200) (some "yoga") ]

/-- One entity with two readings; the Calories and Workout_Type columns
are absent from every record. -/
def tc2 : List RawRecord :=
  [ mkR (some 600) (some 1) (some 30) (some "F") (some 150) (some 50)
      (some 60) none none
  , mkR (some 660) (some 1) (some 30) (some "F") (some 150) (some 50)
      (some 80) none none ]

/-- Entities 17 and 18, two hours apart, with different static values
(heights 150 and 180, genders F and M). -/
def tc3 : List RawRecord :=
  [ mkR (some 600) (some 17) (some 30) (some "F") (some 150) (some 50)
      (some 60) (some 100) (some "run")
  , mkR (some 720) (some 18) (some 40) (some "M") (some 180) (some 80)
      (some 80) (some 200) (some "yoga") ]

/-- Entities 10 and 20, two hours apart. -/
def tc4 : List RawRecord :=
  [ mkR (some 600) (some 10) (some 30) (some "F") (some 150) (some 50)
      (some 60) (some 100) (some "run")
  , mkR (some 720) (some 20) (some 40) (some "M") (some 180) (some 80)
      (some 80) (some 200) (some "yoga") ]

/-- One entity; the Workout_Type cell of the 12:00 reading is missing. -/
def tc5 : List RawRecord :=
  [ mkR (some 600) (some 1) (some 30) (some "F") (some 150) (some 50)
      (some 60) (some 100) (some "run")
  , mkR (some 720) (some 1) (some 30) (some "F") (some 150) (some 50)
      (some 80) (some 120) none ]

/-- One entity with two readings; the Calories column (a measured
numeric column of the table) is absent from every record. -/
def tc6 : List RawRecord :=
  [ mkR (some 600) (some 1) (some 30) (some "F") (some 150) (some 50)
      (some 60) none (some "run")
  , mkR (some 660) (some 1) (some 30) (some "F") (some 150) (some 50)
      (some 80) none (some "run") ]

/-- Two well-formed readings of one entity. -/
def tc7good : List RawRecord :=
  [ mkR (some 600) (some 1) (some 30) (some "F") (some 150) (some 50)
      (some 60) (some 100) (some "run")
  , mkR (some 660) (some 1) (some 30) (some "F") (some 150) (some 50)
      (some 80) (some 120) (some "run") ]

/-- The same readings with one unparsable-timestamp record between
them. -/
def tc7bad : List RawRecord :=
  [ mkR (some 600) (some 1) (some 30) (some "F") (some 150) (some 50)
      (some 60) (some 100) (some "run")
  , mkR none (some 1) (some 30) (some "F") (some 150) (some 50)
      (some 75) (some 110) (some "run")
  , mkR (some 660) (some 1) (some 30) (some "F") (some 150) (some 50)
      (some 80) (some 120) (some "run") ]

/-- One entity, HR 60 at 10:00 and 80 at 12:00, nothing at 11:00: the
interpolation test vector of the spec. -/
def tc8 : List RawRecord :=
  [ mkR (some 600) (some 1) (some 30) (some "F") (some 150) (some 50)
      (some 60) (some 100) (some "run")
  , mkR (some 720) (some 1) (some 30) (some "F") (some 150) (some 50)
      (some 80) (some 120) (some "run") ]

/-- A session holding one uploaded reading and no cleaned frame. -/
def s9 : SessionState :=
  ⟨[ mkR (some 600) (some 1) (some 30) (some "F") (some 150) (some 50)
      (some 60) (some 100) (some "run") ], none⟩

/-- Entities 10 and 21 (ages 30 and 41), two hours apart, so the empty
11:00 cell interpolates to user id 15.5 and age 35.5 before astype. -/
def tc10 : List RawRecord :=
  [ mkR (some 600) (some 10) (some 30) (some "F") (some 150) (some 50)
      (some 60) (some 100) (some "run")
  , mkR (some 720) (some 21) (some 41) (some "M") (some 180) (some 80)
      (some 80) (some 200) (some "yoga") ]

/-- The frame the pipeline returns on tc1. -/
def w1frame : CleanFrame :=
  ⟨[10], [1], [30], [some "F"], [some 150], [some 50], [some 80],
    [some 150], [some "run"], [10]⟩

/-- One entity with every column populated, readings at 10:00 and
12:00. -/
def w2raw : List RawRecord :=
  [ mkR (some 600) (some 1) (some 30) (some "F") (some 150) (some 50)
      (some 60) (some 100) (some "run")
  , mkR (some 720) (some 1) (some 30) (some "F") (some 150) (some 50)
      (some 80) (some 120) (some "swim") ]

/-- The frame the pipeline returns on w2raw. -/
def w2frame : CleanFrame :=
  ⟨[10, 11, 12], [1, 1, 1], [30, 30, 30],
    [some "F", some "F", some "F"], [some 150, some 150, some 150],
    [some 50, some 50, some 50], [some 60, some 70, some 80],
    [some 100, some 110, some 120],
    [some "run", some "run", some "swim"], [10, 11, 12]⟩

/-- The frame the pipeline returns on tc3. -/
def w3frame : CleanFrame :=
  ⟨[10, 11, 12], [17, 17, 18], [30, 35, 40],
    [some "F", some "F", some "M"], [some 150, some 165, some 180],
    [some 50, some 65, some 80], [some 60, some 70, some 80],
    [some 100, some 150, some 200],
    [some "run", some "run", some "yoga"], [10, 11, 12]⟩

/-- A single entity with id 7 observed at 10:00 and 12:00. -/
def w4raw : List RawRecord :=
  [ mkR (some 600) (some 7) (some 30) (some "F") (some 150) (some 50)
      (some 60) (some 100) (some "run")
  , mkR (some 720) (some 7) (some 30) (some "F") (some 150) (some 50)
      (some 80) (some 120) (some "run") ]

/-- The frame the pipeline returns on w4raw. -/
def w4frame : CleanFrame :=
  ⟨[10, 11, 12], [7, 7, 7], [30, 30, 30],
    [some "F", some "F", some "F"], [some 150, some 150, some 150],
    [some 50, some 50, some 50], [some 60, some 70, some 80],
    [some 100, some 110, some 120],
    [some "run", some "run", some "run"], [10, 11, 12]⟩

/-- The frame the pipeline returns on tc5. -/
def w5frame : CleanFrame :=
  ⟨[10, 11, 12], [1, 1, 1], [30, 30, 30],
    [some "F", some "F", some "F"], [some 150, some 150, some 150],
    [some 50, some 50, some 50], [some 60, some 70, some 80],
    [some 100, some 110, some 120],
    [some "run", some "run", some "run"], [10, 11, 12]⟩

/-- One good reading, used on the left of the C7 witness. -/
def w7l : List RawRecord :=
  [ mkR (some 600) (some 1) (some 30) (some "F") (some 150) (some 50)
      (some 60) (some 100) (some "run") ]

/-- One good reading, used on the right of the C7 witness. -/
def w7t : List RawRecord :=
  [ mkR (some 660) (some 1) (some 30) (some "F") (some 150) (some 50)
      (some 80) (some 120) (some "run") ]

/-- A record whose timestamp fails to parse. -/
def w7r : RawRecord :=
  mkR none (some 1) (some 30) (some "F") (some 150) (some 50)
    (some 70) (some 110) (some "run")

end FitPulse

namespace FitPulse

/-! Helper lemmas about the fill primitives. -/

theorem getLast?_mem_of_eq {l : List α} {x : α} (h : l.getLast? = some x) :
    x ∈ l := by
  induction l with
  | nil => simp at h
  | cons a t ih =>
    cases t with
    | nil => simp at h; simp [h]
    | cons b u =>
      rw [List.getLast?_cons_cons] at h
      exact List.mem_cons_of_mem a (ih h)

theorem head?_mem_of_eq {l : List α} {x : α} (h : l.head? = some x) : x ∈ l := by
  cases l with
  | nil => simp at h
  | cons a t => simp at h; simp [h]

theorem ffillAux_length (last : Option α) (v : List (Option α)) :
    (ffillAux last v).length = v.length := by
  induction v generalizing last with
  | nil => rfl
  | cons x xs ih => cases x <;> simp [ffillAux, ih]

theorem mem_ffillAux (last : Option α) (v : List (Option α)) (y : Option α)
    (hy : y ∈ ffillAux last v) : y = last ∨ y ∈ v := by
  induction v generalizing last with
  | nil => simp [ffillAux] at hy
  | cons x xs ih =>
    cases x with
    | some a =>
      simp only [ffillAux, List.mem_cons] at hy
      rcases hy with h | h
      · right; simp [h]
      · rcases ih (some a) h with h2 | h2
        · right; simp [h2]
        · right; exact List.mem_cons_of_mem _ h2
    | none =>
      simp only [ffillAux, List.mem_cons] at hy
      rcases hy with h | h
      · left; exact h
      · rcases ih last h with h2 | h2
        · left; exact h2
        · right; exact List.mem_cons_of_mem _ h2

theorem ffillAux_all_isSome (a : α) (v : List (Option α)) :
    ∀ y ∈ ffillAux (some a) v, y.isSome := by
  induction v generalizing a with
  | nil => simp [ffillAux]
  | cons x xs ih =>
    intro y hy
    cases x with
    | some b =>
      simp only [ffillAux, List.mem_cons] at hy
      rcases hy with h | h
      · simp [h]
      · exact ih b y h
    | none =>
      simp only [ffillAux, List.mem_cons] at hy
      rcases hy with h | h
      · simp [h]
      · exact ih a y h

theorem ffillAux_append_some (last : Option α) (s t : List (Option α)) (a : α) :
    ffillAux last (s ++ some a :: t) =
      ffillAux last s ++ some a :: ffillAux (some a) t := by
  induction s generalizing last with
  | nil => simp [ffillAux]
  | cons x xs ih => cases x <;> simp [ffillAux, ih]

theorem ffillAux_append_all_isSome (w : List (Option α))
    (hw : ∀ y ∈ w, y.isSome) (last : Option α) (a : α) (r : List (Option α)) :
    ∀ y ∈ ffillAux last (w ++ some a :: r), y.isSome := by
  induction w generalizing last with
  | nil =>
    intro y hy
    simp only [List.nil_append, ffillAux, List.mem_cons] at hy
    rcases hy with h | h
    · simp [h]
    · exact ffillAux_all_isSome a r y h
  | cons x xs ih =>
    intro y hy
    have hx : x.isSome := hw x (List.mem_cons_self x xs)
    obtain ⟨b, rfl⟩ := Option.isSome_iff_exists.mp hx
    simp only [List.cons_append, ffillAux, List.mem_cons] at hy
    rcases hy with h | h
    · simp [h]
    · exact ih (fun y hy2 => hw y (List.mem_cons_of_mem _ hy2)) (some b) y h

theorem ffillAux_getElem?_some (last : Option α) (v : List (Option α))
    (i : Nat) (a : α) (h : v[i]? = some (some a)) :
    (ffillAux last v)[i]? = some (some a) := by
  induction v generalizing last i with
  | nil => simp at h
  | cons x xs ih =>
    cases i with
    | zero =>
      simp only [List.getElem?_cons_zero, Option.some.injEq] at h
      subst h
      simp [ffillAux]
    | succ n =>
      simp only [List.getElem?_cons_succ] at h
      cases x with
      | some b => simpa [ffillAux] using ih (some b) n h
      | none => simpa [ffillAux] using ih last n h

theorem bfillList_length (v : List (Option α)) :
    (bfillList v).length = v.length := by
  simp [bfillList, ffillAux_length]

theorem ffillList_length (v : List (Option α)) :
    (ffillList v).length = v.length := by
  simp [ffillList, ffillAux_length]

theorem mem_bfillList (v : List (Option α)) (y : Option α)
    (hy : y ∈ bfillList v) : y = none ∨ y ∈ v := by
  simp only [bfillList, List.mem_reverse] at hy
  rcases mem_ffillAux none v.reverse y hy with h | h
  · left; exact h
  · right; exact List.mem_reverse.mp h

theorem mem_strFill (v : List (Option α)) (y : Option α)
    (hy : y ∈ strFill v) : y = none ∨ y ∈ v := by
  rcases mem_bfillList _ y hy with h | h
  · left; exact h
  · rcases mem_ffillAux none v y h with h2 | h2
    · left; exact h2
    · right; exact h2

theorem strFill_all_isSome (v : List (Option α)) (a : α) (hv : some a ∈ v) :
    ∀ y ∈ strFill v, y.isSome := by
  obtain ⟨s, t, rfl⟩ := List.append_of_mem hv
  intro y hy
  simp only [strFill, ffillList, bfillList, List.mem_reverse] at hy
  rw [ffillAux_append_some] at hy
  rw [show (ffillAux none s ++ some a :: ffillAux (some a) t).reverse =
        (ffillAux (some a) t).reverse ++ some a :: (ffillAux none s).reverse by
      simp] at hy
  refine ffillAux_append_all_isSome _ ?_ none a _ y hy
  intro z hz
  exact ffillAux_all_isSome a t z (List.mem_reverse.mp hz)

theorem bfillList_getElem?_some (v : List (Option α)) (i : Nat) (a : α)
    (h : v[i]? = some (some a)) : (bfillList v)[i]? = some (some a) := by
  have hi : i < v.length := (List.getElem?_eq_some_iff.mp h).1
  have hj : v.length - 1 - i < v.length := by omega
  have hrev : v.reverse[v.length - 1 - i]? = some (some a) := by
    rw [List.getElem?_reverse (by simpa using hj)]
    rw [show v.length - 1 - (v.length - 1 - i) = i by omega]
    exact h
  have hff := ffillAux_getElem?_some none v.reverse (v.length - 1 - i) a hrev
  have hlen : (ffillAux none v.reverse).length = v.length := by
    simp [ffillAux_length]
  show ((ffillAux none v.reverse).reverse)[i]? = some (some a)
  rw [List.getElem?_reverse (by simpa [hlen] using hi), hlen]
  exact hff

theorem strFill_getElem?_some (v : List (Option α)) (i : Nat) (a : α)
    (h : v[i]? = some (some a)) : (strFill v)[i]? = some (some a) :=
  bfillList_getElem?_some _ _ _ (ffillAux_getElem?_some none v i a h)

theorem strFill_length (v : List (Option α)) :
    (strFill v).length = v.length := by
  simp [strFill, bfillList_length, ffillList_length]

theorem strFill_all_none (v : List (Option α)) (hv : ∀ x ∈ v, x = none) :
    ∀ y ∈ strFill v, y = none := by
  intro y hy
  rcases mem_strFill v y hy with h | h
  · exact h
  · exact hv y h

/-! Helper lemmas about interpolation. -/

theorem interpolateList_length (v : List (Option Rat)) :
    (interpolateList v).length = v.length := by
  simp [interpolateList]

theorem interpolateList_getElem? (v : List (Option Rat)) (i : Nat)
    (hi : i < v.length) : (interpolateList v)[i]? = some (interpAt v i) := by
  simp [interpolateList, List.getElem?_range hi]

theorem interpAt_of_getElem?_some (v : List (Option Rat)) (i : Nat) (a : Rat)
    (h : v[i]? = some (some a)) : interpAt v i = some a := by
  unfold interpAt
  rw [h]

theorem somePositions_mem (v : List (Option Rat)) (p : Nat × Rat)
    (hp : p ∈ somePositions v) : v[p.1]? = some (some p.2) := by
  simp only [somePositions, List.mem_filterMap, List.mem_range] at hp
  obtain ⟨j, _, hmatch⟩ := hp
  cases hv : v[j]? with
  | none => rw [hv] at hmatch; simp at hmatch
  | some o =>
    cases o with
    | none => rw [hv] at hmatch; simp at hmatch
    | some a =>
      rw [hv] at hmatch
      simp only [Option.some.injEq] at hmatch
      rw [← hmatch]
      exact hv

theorem lastSomeBefore_spec (v : List (Option Rat)) (i j : Nat) (a : Rat)
    (h : lastSomeBefore v i = some (j, a)) :
    v[j]? = some (some a) ∧ j < i := by
  have hmem := getLast?_mem_of_eq h
  have hf := List.mem_filter.mp hmem
  exact ⟨somePositions_mem v (j, a) hf.1, by simpa using hf.2⟩

theorem firstSomeAfter_spec (v : List (Option Rat)) (i k : Nat) (b : Rat)
    (h : firstSomeAfter v i = some (k, b)) :
    v[k]? = some (some b) ∧ i < k := by
  have hmem := head?_mem_of_eq h
  have hf := List.mem_filter.mp hmem
  exact ⟨somePositions_mem v (k, b) hf.1, by simpa using hf.2⟩

theorem interpAt_const (v : List (Option Rat)) (d : Rat)
    (hv : ∀ x ∈ v, x = none ∨ x = some d) (i : Nat) :
    interpAt v i = none ∨ interpAt v i = some d := by
  unfold interpAt
  cases hvi : v[i]? with
  | some o =>
    cases o with
    | some x =>
      right
      have hx : some x ∈ v := List.getElem?_mem hvi
      rcases hv _ hx with h | h
      · simp at h
      · simp only [Option.some.injEq] at h
        simp [h]
    | none =>
      cases hL : lastSomeBefore v i with
      | none => left; rfl
      | some p =>
        obtain ⟨j, a⟩ := p
        have hja : a = d := by
          have := (lastSomeBefore_spec v i j a hL).1
          rcases hv _ (List.getElem?_mem this) with h | h
          · simp at h
          · simpa using h
        cases hF : firstSomeAfter v i with
        | none => right; simp [hja]
        | some q =>
          obtain ⟨k, b⟩ := q
          have hkb : b = d := by
            have := (firstSomeAfter_spec v i k b hF).1
            rcases hv _ (List.getElem?_mem this) with h | h
            · simp at h
            · simpa using h
          right
          simp [hja, hkb, sub_self, zero_mul, add_zero]
  | none =>
    cases hL : lastSomeBefore v i with
    | none => left; rfl
    | some p =>
      obtain ⟨j, a⟩ := p
      have hja : a = d := by
        have := (lastSomeBefore_spec v i j a hL).1
        rcases hv _ (List.getElem?_mem this) with h | h
        · simp at h
        · simpa using h
      cases hF : firstSomeAfter v i with
      | none => right; simp [hja]
      | some q =>
        obtain ⟨k, b⟩ := q
        have hkb : b = d := by
          have := (firstSomeAfter_spec v i k b hF).1
          rcases hv _ (List.getElem?_mem this) with h | h
          · simp at h
          · simpa using h
        right
        simp [hja, hkb, sub_self, zero_mul, add_zero]

theorem interpAt_all_none (v : List (Option Rat))
    (hv : ∀ x ∈ v, x = none) (i : Nat) : interpAt v i = none := by
  unfold interpAt
  cases hL : lastSomeBefore v i with
  | some p =>
    obtain ⟨j, a⟩ := p
    have := (lastSomeBefore_spec v i j a hL).1
    have := hv _ (List.getElem?_mem this)
    simp at this
  | none =>
    cases hvi : v[i]? with
    | some o =>
      cases o with
      | some x =>
        have := hv _ (List.getElem?_mem hvi)
        simp at this
      | none => simp [hL]
    | none => simp [hL]

theorem mem_interpolateList (v : List (Option Rat)) (y : Option Rat)
    (hy : y ∈ interpolateList v) : ∃ i, y = interpAt v i := by
  simp only [interpolateList, List.mem_map, List.mem_range] at hy
  obtain ⟨i, _, rfl⟩ := hy
  exact ⟨i, rfl⟩

/-! Helper lemmas combining interpolation with the fills. -/

theorem numFill_eq_strFill (v : List (Option Rat)) :
    numFill v = strFill (interpolateList v) := rfl

theorem numFill_length (v : List (Option Rat)) :
    (numFill v).length = v.length := by
  rw [numFill_eq_strFill, strFill_length, interpolateList_length]

theorem numFill_getElem?_some (v : List (Option Rat)) (i : Nat) (a : Rat)
    (h : v[i]? = some (some a)) : (numFill v)[i]? = some (some a) := by
  have hi : i < v.length := (List.getElem?_eq_some_iff.mp h).1
  have h2 : (interpolateList v)[i]? = some (some a) := by
    rw [interpolateList_getElem? v i hi, interpAt_of_getElem?_some v i a h]
  exact strFill_getElem?_some _ _ _ h2

theorem numFill_all_isSome (v : List (Option Rat)) (a : Rat)
    (hv : some a ∈ v) : ∀ y ∈ numFill v, y.isSome := by
  obtain ⟨i, hi⟩ := List.getElem?_of_mem hv
  have h2 : (interpolateList v)[i]? = some (some a) := by
    rw [interpolateList_getElem? v i (List.getElem?_eq_some_iff.mp hi).1,
      interpAt_of_getElem?_some v i a hi]
  exact strFill_all_isSome _ a (List.getElem?_mem h2)

theorem numFill_const (v : List (Option Rat)) (d : Rat)
    (hv : ∀ x ∈ v, x = none ∨ x = some d) :
    ∀ y ∈ numFill v, y = none ∨ y = some d := by
  intro y hy
  rw [numFill_eq_strFill] at hy
  rcases mem_strFill _ y hy with h | h
  · left; exact h
  · obtain ⟨i, rfl⟩ := mem_interpolateList v y h
    exact interpAt_const v d hv i

theorem numFill_all_none (v : List (Option Rat))
    (hv : ∀ x ∈ v, x = none) : ∀ y ∈ numFill v, y = none := by
  intro y hy
  rw [numFill_eq_strFill] at hy
  refine strFill_all_none _ ?_ y hy
  intro x hx
  obtain ⟨i, rfl⟩ := mem_interpolateList v x hx
  exact interpAt_all_none v hv i

/-! Helper lemmas about the grid and aggregation. -/

theorem foldMin_isSome (l : List Nat) (hl : l ≠ []) :
    ∃ m, foldMin l = some m := by
  cases l with
  | nil => exact absurd rfl hl
  | cons x xs =>
    unfold foldMin
    cases foldMin xs with
    | none => exact ⟨x, rfl⟩
    | some m => exact ⟨min x m, rfl⟩

theorem foldMax_isSome (l : List Nat) (hl : l ≠ []) :
    ∃ m, foldMax l = some m := by
  cases l with
  | nil => exact absurd rfl hl
  | cons x xs =>
    unfold foldMax
    cases foldMax xs with
    | none => exact ⟨x, rfl⟩
    | some m => exact ⟨max x m, rfl⟩

theorem foldMin_eq_none (l : List Nat) (h : foldMin l = none) : l = [] := by
  cases l with
  | nil => rfl
  | cons x xs =>
    unfold foldMin at h
    split at h <;> simp at h

theorem foldMin_le (l : List Nat) (m : Nat) (h : foldMin l = some m) :
    ∀ x ∈ l, m ≤ x := by
  induction l generalizing m with
  | nil => simp [foldMin] at h
  | cons x xs ih =>
    intro y hy
    unfold foldMin at h
    cases hxs : foldMin xs with
    | none =>
      rw [hxs] at h
      simp only [Option.some.injEq] at h
      have hxe := foldMin_eq_none xs hxs
      subst hxe
      rcases List.mem_cons.mp hy with rfl | h2
      · omega
      · simp at h2
    | some m2 =>
      rw [hxs] at h
      simp only [Option.some.injEq] at h
      rcases List.mem_cons.mp hy with rfl | h2
      · rw [← h]; exact Nat.min_le_left _ _
      · rw [← h]; exact le_trans (Nat.min_le_right x m2) (ih m2 hxs y h2)

theorem foldMax_eq_none (l : List Nat) (h : foldMax l = none) : l = [] := by
  cases l with
  | nil => rfl
  | cons x xs =>
    unfold foldMax at h
    split at h <;> simp at h

theorem foldMax_ge (l : List Nat) (m : Nat) (h : foldMax l = some m) :
    ∀ x ∈ l, x ≤ m := by
  induction l generalizing m with
  | nil => simp [foldMax] at h
  | cons x xs ih =>
    intro y hy
    unfold foldMax at h
    cases hxs : foldMax xs with
    | none =>
      rw [hxs] at h
      simp only [Option.some.injEq] at h
      have hxe := foldMax_eq_none xs hxs
      subst hxe
      rcases List.mem_cons.mp hy with rfl | h2
      · omega
      · simp at h2
    | some m2 =>
      rw [hxs] at h
      simp only [Option.some.injEq] at h
      rcases List.mem_cons.mp hy with rfl | h2
      · rw [← h]; exact Nat.le_max_left _ _
      · rw [← h]; exact le_trans (ih m2 hxs y h2) (Nat.le_max_right x m2)

theorem mem_gridHours (rows : List DatedRecord) (r : DatedRecord)
    (hr : r ∈ rows) : floorHour r.date ∈ gridHours rows := by
  have hmem : floorHour r.date ∈ hourList rows :=
    List.mem_map_of_mem _ hr
  have hne : hourList rows ≠ [] := List.ne_nil_of_mem hmem
  obtain ⟨a, ha⟩ := foldMin_isSome _ hne
  obtain ⟨b, hb⟩ := foldMax_isSome _ hne
  have h1 : a ≤ floorHour r.date := foldMin_le _ _ ha _ hmem
  have h2 : floorHour r.date ≤ b := foldMax_ge _ _ hb _ hmem
  unfold gridHours
  rw [ha, hb, List.mem_range'_1]
  omega

theorem gridHours_nil : gridHours [] = [] := rfl

theorem mem_cellRecords_self (rows : List DatedRecord) (r : DatedRecord)
    (hr : r ∈ rows) : r ∈ cellRecords rows (floorHour r.date) := by
  simp [cellRecords, hr]

theorem cellRecords_subset (rows : List DatedRecord) (h : Nat)
    (r : DatedRecord) (hr : r ∈ cellRecords rows h) : r ∈ rows :=
  (List.mem_filter.mp hr).1

theorem firstVal_isSome_of_mem (xs : List (Option α)) (a : α)
    (ha : some a ∈ xs) : ∃ b, firstVal xs = some b := by
  unfold firstVal
  have hmem : a ∈ xs.filterMap id := by
    simp only [List.mem_filterMap]
    exact ⟨some a, ha, rfl⟩
  cases hxs : xs.filterMap id with
  | nil => rw [hxs] at hmem; simp at hmem
  | cons y ys => exact ⟨y, rfl⟩

theorem firstVal_mem (xs : List (Option α)) (b : α)
    (h : firstVal xs = some b) : some b ∈ xs := by
  unfold firstVal at h
  have hmem : b ∈ xs.filterMap id := head?_mem_of_eq h
  simp only [List.mem_filterMap] at hmem
  obtain ⟨o, ho, hid⟩ := hmem
  cases o with
  | none => simp at hid
  | some c => simp at hid; subst hid; exact ho

theorem firstVal_const (xs : List (Option α)) (d : α)
    (hxs : ∀ x ∈ xs, x = none ∨ x = some d) :
    firstVal xs = none ∨ firstVal xs = some d := by
  cases hfv : firstVal xs with
  | none => left; rfl
  | some b =>
    right
    have := firstVal_mem xs b hfv
    rcases hxs _ this with h | h
    · simp at h
    · simp only [Option.some.injEq] at h
      rw [h]

theorem meanVal_isSome_of_mem (xs : List (Option Rat)) (a : Rat)
    (ha : some a ∈ xs) : ∃ b, meanVal xs = some b := by
  unfold meanVal
  have hmem : a ∈ xs.filterMap id := by
    simp only [List.mem_filterMap]
    exact ⟨some a, ha, rfl⟩
  have hlen : (xs.filterMap id).length ≠ 0 := by
    have := List.length_pos_of_mem hmem
    omega
  simp only [hlen, if_false]
  exact ⟨_, rfl⟩

theorem aggFirst_exists_some (rows : List DatedRecord)
    (proj : DatedRecord → Option α) (r : DatedRecord) (hr : r ∈ rows)
    (a : α) (ha : proj r = some a) :
    ∃ b, some b ∈ aggFirst rows proj := by
  have hcell : r ∈ cellRecords rows (floorHour r.date) :=
    mem_cellRecords_self rows r hr
  have hmm : some a ∈ (cellRecords rows (floorHour r.date)).map proj := by
    rw [← ha]
    exact List.mem_map_of_mem proj hcell
  obtain ⟨b, hb⟩ := firstVal_isSome_of_mem _ a hmm
  refine ⟨b, ?_⟩
  rw [← hb]
  exact List.mem_map_of_mem _ (mem_gridHours rows r hr)

theorem aggMean_exists_some (rows : List DatedRecord)
    (proj : DatedRecord → Option Rat) (r : DatedRecord) (hr : r ∈ rows)
    (a : Rat) (ha : proj r = some a) :
    ∃ b, some b ∈ aggMean rows proj := by
  have hcell : r ∈ cellRecords rows (floorHour r.date) :=
    mem_cellRecords_self rows r hr
  have hmm : some a ∈ (cellRecords rows (floorHour r.date)).map proj := by
    rw [← ha]
    exact List.mem_map_of_mem proj hcell
  obtain ⟨b, hb⟩ := meanVal_isSome_of_mem _ a hmm
  refine ⟨b, ?_⟩
  rw [← hb]
  exact List.mem_map_of_mem _ (mem_gridHours rows r hr)

theorem aggFirst_all_none (rows : List DatedRecord)
    (proj : DatedRecord → Option α) (hall : ∀ r ∈ rows, proj r = none) :
    ∀ y ∈ aggFirst rows proj, y = none := by
  intro y hy
  simp only [aggFirst, List.mem_map] at hy
  obtain ⟨h, _, rfl⟩ := hy
  cases hfv : firstVal ((cellRecords rows h).map proj) with
  | none => rfl
  | some b =>
    have := firstVal_mem _ b hfv
    simp only [List.mem_map] at this
    obtain ⟨r, hrc, hpr⟩ := this
    rw [hall r (cellRecords_subset rows h r hrc)] at hpr
    simp at hpr

theorem aggFirst_const (rows : List DatedRecord)
    (proj : DatedRecord → Option α) (d : α)
    (hall : ∀ r ∈ rows, proj r = none ∨ proj r = some d) :
    ∀ y ∈ aggFirst rows proj, y = none ∨ y = some d := by
  intro y hy
  simp only [aggFirst, List.mem_map] at hy
  obtain ⟨h, _, rfl⟩ := hy
  apply firstVal_const
  intro x hx
  simp only [List.mem_map] at hx
  obtain ⟨r, hrc, rfl⟩ := hx
  exact hall r (cellRecords_subset rows h r hrc)

theorem aggFirst_length (rows : List DatedRecord)
    (proj : DatedRecord → Option α) :
    (aggFirst rows proj).length = (gridHours rows).length := by
  simp [aggFirst]

/-! Helper lemmas about the sort, the survivors and astype. -/

theorem mem_insertByDate (r x : DatedRecord) (l : List DatedRecord) :
    x ∈ insertByDate r l ↔ x = r ∨ x ∈ l := by
  induction l with
  | nil => simp [insertByDate]
  | cons y ys ih =>
    unfold insertByDate
    split
    · rw [List.mem_cons, ih, List.mem_cons]
      tauto
    · simp only [List.mem_cons]

theorem mem_sortByDate (l : List DatedRecord) (x : DatedRecord) :
    x ∈ sortByDate l ↔ x ∈ l := by
  unfold sortByDate
  induction l with
  | nil => simp
  | cons y ys ih =>
    rw [List.foldr_cons, mem_insertByDate, ih, List.mem_cons]

theorem survivors_mem_raw (raw : List RawRecord) (r : DatedRecord)
    (hr : r ∈ survivors raw) :
    ∃ rr ∈ raw, rr.date = some r.date ∧ rr.user_id = r.user_id ∧
      rr.age = r.age ∧ rr.gender = r.gender ∧ rr.height = r.height ∧
      rr.weight = r.weight ∧ rr.heart_rate = r.heart_rate ∧
      rr.calories = r.calories ∧ rr.workout_type = r.workout_type := by
  unfold survivors at hr
  have hr2 : r ∈ dropUnparsable raw := (mem_sortByDate _ _).mp hr
  simp only [dropUnparsable, List.mem_filterMap] at hr2
  obtain ⟨rr, hrr, hmap⟩ := hr2
  cases hd : rr.date with
  | none => rw [hd] at hmap; simp at hmap
  | some t =>
    rw [hd] at hmap
    simp only [Option.map_some', Option.some.injEq] at hmap
    refine ⟨rr, hrr, ?_⟩
    rw [← hmap]
    simp [hd]

theorem astypeIntCol_ok_of_all (colName : String) (v : List (Option Rat))
    (hall : ∀ y ∈ v, y.isSome) :
    astypeIntCol colName v =
      Except.ok (v.map fun x => truncToInt (x.getD 0)) := by
  have hc : (v.all fun x => x.isSome) = true := List.all_eq_true.mpr hall
  unfold astypeIntCol
  rw [if_pos hc]

theorem astypeIntCol_error_of_not_all (colName : String)
    (v : List (Option Rat)) (hnot : ¬ ∀ y ∈ v, y.isSome) :
    astypeIntCol colName v =
      Except.error (PipelineError.astypeNaN colName) := by
  have hc : ¬ ((v.all fun x => x.isSome) = true) :=
    fun hc => hnot (List.all_eq_true.mp hc)
  unfold astypeIntCol
  rw [if_neg hc]

theorem astypeIntCol_ok_length (colName : String) (v : List (Option Rat))
    (out : List Int) (h : astypeIntCol colName v = Except.ok out) :
    out.length = v.length := by
  unfold astypeIntCol at h
  split at h
  · rw [← Except.ok.inj h]
    simp
  · cases h

theorem truncToInt_intCast (c : Int) : truncToInt ((c : Rat)) = c := by
  unfold truncToInt
  split
  · exact Int.floor_intCast c
  · exact Int.ceil_intCast c

/-! The shape of a successful and of a failing pipeline run. -/

theorem pipeline_ok_elim (raw : List RawRecord) (f : CleanFrame)
    (h : pipeline raw = Except.ok f) :
    astypeIntCol "User_ID" (numFill (aggFirst (survivors raw) uidProj)) =
      Except.ok f.user_id ∧
    astypeIntCol "Age" (numFill (aggFirst (survivors raw) ageProj)) =
      Except.ok f.age ∧
    f.date = gridHours (survivors raw) ∧
    f.gender = strFill (aggFirst (survivors raw) fun r => r.gender) ∧
    f.height = numFill (aggFirst (survivors raw) fun r => r.height) ∧
    f.weight = numFill (aggFirst (survivors raw) fun r => r.weight) ∧
    f.heart_rate = numFill (aggMean (survivors raw) fun r => r.heart_rate) ∧
    f.calories = numFill (aggMean (survivors raw) fun r => r.calories) ∧
    f.workout_type =
      strFill (aggFirst (survivors raw) fun r => r.workout_type) ∧
    f.hour = (gridHours (survivors raw)).map fun h => h % 24 := by
  unfold pipeline at h
  cases hu : astypeIntCol "User_ID" (numFill (aggFirst (survivors raw)
      uidProj)) with
  | error e => rw [hu] at h; simp at h
  | ok uid =>
    rw [hu] at h
    cases ha : astypeIntCol "Age" (numFill (aggFirst (survivors raw)
        ageProj)) with
    | error e => rw [ha] at h; simp at h
    | ok ag =>
      rw [ha] at h
      simp only [Except.ok.injEq] at h
      subst h
      refine ⟨?_, ?_, rfl, rfl, rfl, rfl, rfl, rfl, rfl, rfl⟩
      · simp
      · simp

theorem pipeline_error_elim (raw : List RawRecord) (e : PipelineError)
    (h : pipeline raw = Except.error e) :
    ¬ (∀ y ∈ numFill (aggFirst (survivors raw) uidProj), y.isSome) ∨
    ¬ (∀ y ∈ numFill (aggFirst (survivors raw) ageProj), y.isSome) := by
  by_contra hc
  push_neg at hc
  obtain ⟨h1, h2⟩ := hc
  unfold pipeline at h
  rw [astypeIntCol_ok_of_all _ _ h1] at h
  rw [astypeIntCol_ok_of_all _ _ h2] at h
  simp at h

theorem pipeline_error_of_uid (raw : List RawRecord)
    (hnot : ¬ ∀ y ∈ numFill (aggFirst (survivors raw) uidProj), y.isSome) :
    ∃ e, pipeline raw = Except.error e := by
  refine ⟨PipelineError.astypeNaN "User_ID", ?_⟩
  unfold pipeline
  rw [astypeIntCol_error_of_not_all _ _ hnot]

theorem pipeline_error_of_age (raw : List RawRecord)
    (hnot : ¬ ∀ y ∈ numFill (aggFirst (survivors raw) ageProj), y.isSome) :
    ∃ e, pipeline raw = Except.error e := by
  cases hu : astypeIntCol "User_ID" (numFill (aggFirst (survivors raw)
      uidProj)) with
  | error e =>
    refine ⟨e, ?_⟩
    unfold pipeline
    rw [hu]
  | ok uid =>
    refine ⟨PipelineError.astypeNaN "Age", ?_⟩
    unfold pipeline
    rw [hu, astypeIntCol_error_of_not_all _ _ hnot]

/-! Claim theorems. -/

/-- C1, counterexample: the dataset tc1 holds readings of two entities
(user ids 1 and 2) inside the same hour 10:00, yet the output has a
single row for that grid hour, carrying user id 1 and heart rate 80 --
the cross-entity mean of 60 and 100.  So the output does not contain
one row per (entity_id, grid_timestamp) pair (entity 2 has no row at
all), and rows of different entities are merged into one grid cell,
refuting the claim: line 143 resamples the whole frame with no grouping
by entity. -/
theorem c1_counterexample :
    pipeline tc1 =
      Except.ok
        ⟨[10], [1], [30], [some "F"], [some 150], [some 50],
          [some 80], [some 150], [some "run"], [10]⟩ := by
  with_unfolding_all decide

/-- C2, counterexample: in tc2 the Calories (measured numeric) and
Workout_Type (categorical) columns are absent from every record -- a
schema the spec still calls valid, since its SchemaError clause only
covers measured numeric columns absent from all records, which it says
are rejected, and says nothing about empty categorical columns.  The
engine neither rejects the input nor fills those columns: both come out
entirely null, refuting the zero-missing-values postcondition. -/
theorem c2_counterexample :
    pipeline tc2 =
      Except.ok
        ⟨[10, 11], [1, 1], [30, 30], [some "F", some "F"],
          [some 150, some 150], [some 50, some 50], [some 60, some 80],
          [none, none], [none, none], [10, 11]⟩ := by
  with_unfolding_all decide

/-- C3, counterexample: in tc3 entity 17 (height 150) reads at 10:00
and entity 18 (height 180) at 12:00.  The empty 11:00 cell gets its
user id by linear interpolation, 17.5, truncated by astype(int) to 17,
and its height by linear interpolation to 165.  Entity 17 therefore
owns two output rows (user_id 17) whose STATIC Height values are 150
and 165: not constant, and 165 differs from entity 17's first
chronologically observed height 150, refuting the claim. -/
theorem c3_counterexample :
    pipeline tc3 =
      Except.ok
        ⟨[10, 11, 12], [17, 17, 18], [30, 35, 40],
          [some "F", some "F", some "M"],
          [some 150, some 165, some 180], [some 50, some 65, some 80],
          [some 60, some 70, some 80], [some 100, some 150, some 200],
          [some "run", some "run", some "yoga"], [10, 11, 12]⟩ := by
  with_unfolding_all decide

/-- C4, counterexample: tc4 ingests only the integer user ids 10 and
20, yet the output row for the empty 11:00 grid cell carries user id
15 -- the linear interpolation of 10 and 20 -- an integer that is not
the same integer as any ingested identifier, refuting the claim that
every output row carries the identifier as the same ingested integer. -/
theorem c4_counterexample :
    pipeline tc4 =
      Except.ok
        ⟨[10, 11, 12], [10, 15, 20], [30, 35, 40],
          [some "F", some "F", some "M"],
          [some 150, some 165, some 180], [some 50, some 65, some 80],
          [some 60, some 70, some 80], [some 100, some 150, some 200],
          [some "run", some "run", some "yoga"], [10, 11, 12]⟩ ∧
      some (15 : Int) ∉ tc4.map (fun r => r.user_id) := by
  exact ⟨by with_unfolding_all decide, by with_unfolding_all decide⟩

/-- C5, counterexample: in tc5 the 12:00 reading has a missing
Workout_Type.  The output fills that cell (and the empty 11:00 cell)
with the neighbouring row's value, some "run", via ffill (line 148):
the missing categorical value is filled by propagating a neighbouring
row's value, and no configured sentinel label such as "no activity
recorded" exists anywhere in the pipeline, refuting the claim. -/
theorem c5_counterexample :
    pipeline tc5 =
      Except.ok
        ⟨[10, 11, 12], [1, 1, 1], [30, 30, 30],
          [some "F", some "F", some "F"],
          [some 150, some 150, some 150], [some 50, some 50, some 50],
          [some 60, some 70, some 80], [some 100, some 110, some 120],
          [some "run", some "run", some "run"], [10, 11, 12]⟩ ∧
      tc5.map (fun r => r.workout_type) = [some "run", none] := by
  exact ⟨by with_unfolding_all decide, by with_unfolding_all decide⟩

/-- C6, counterexample: in tc6 the Calories column -- a declared
measured numeric column of the table -- is absent from all records,
the very premise under which the claim requires a SchemaError before
any row is transformed.  The pipeline instead runs to completion and
returns a transformed frame (with Calories still null): no error of
any kind is raised.  The source contains no SchemaError and no schema
validation at all. -/
theorem c6_counterexample :
    pipeline tc6 =
      Except.ok
        ⟨[10, 11], [1, 1], [30, 30], [some "F", some "F"],
          [some 150, some 150], [some 50, some 50], [some 60, some 80],
          [none, none], [some "run", some "run"], [10, 11]⟩ ∧
      tc6.all (fun r => r.calories.isNone) = true := by
  exact ⟨by with_unfolding_all decide, by with_unfolding_all decide⟩

/-- C7, counterexample: tc7bad is tc7good with one extra
unparsable-timestamp record.  The two runs return identical outputs --
frame, residual-null count, every derived figure -- although the
number of discarded records differs (1 against 0).  No function of
what the pipeline hands back can therefore report the count of
discarded records: the count is not surfaced as a diagnostic,
refuting that part of the claim (the discard itself does happen and
the pipeline does not fail, which the amended claim keeps). -/
theorem c7_counterexample :
    pipeline tc7bad = pipeline tc7good ∧
      (tc7bad.filter (fun r => r.date.isNone)).length = 1 ∧
      (tc7good.filter (fun r => r.date.isNone)).length = 0 := by
  exact ⟨by with_unfolding_all decide, by with_unfolding_all decide, by with_unfolding_all decide⟩

/-- C8: the spec's interpolation test vector.  With one entity reading
heart rate 60 at 10:00 and 80 at 12:00 and nothing at 11:00, hourly
resampling yields the grid [10:00, 11:00, 12:00] and the 11:00
MEASURED_NUMERIC heart-rate cell is exactly 70, the midpoint linear
interpolation (line 147). -/
theorem c8_interpolation :
    pipeline tc8 =
      Except.ok
        ⟨[10, 11, 12], [1, 1, 1], [30, 30, 30],
          [some "F", some "F", some "F"],
          [some 150, some 150, some 150], [some 50, some 50, some 50],
          [some 60, some 70, some 80], [some 100, some 110, some 120],
          [some "run", some "run", some "run"], [10, 11, 12]⟩ := by
  with_unfolding_all decide

/-- C9, counterexample: running Step 3 on session s9 with the models
directory absent performs the filesystem operation makedirs('models')
(lines 156-157): the run is not free of file-system side effects,
refuting the no-I/O half of the claim.  (The raw records themselves
are indeed left unchanged; the amended theorem keeps that part.) -/
theorem c9_counterexample :
    (runStep3 false s9).2 = [FsEffect.makedirs "models"] := by
  with_unfolding_all decide

/-- C10: in tc10 only the integer user ids 10 and 21 (ages 30 and 41)
are ingested.  The 11:00 grid cell receives no source records, so its
User_ID is linearly interpolated to 15.5 and its Age to 35.5
(line 147) and both are truncated to integers 15 and 35 by astype(int)
(lines 151-153): the cell carries an identifier value never ingested
for any entity, exactly as the claim states. -/
theorem c10_interpolated_ids :
    pipeline tc10 =
      Except.ok
        ⟨[10, 11, 12], [10, 15, 21], [30, 35, 41],
          [some "F", some "F", some "M"],
          [some 150, some 165, some 180], [some 50, some 65, some 80],
          [some 60, some 70, some 80], [some 100, some 150, some 200],
          [some "run", some "run", some "yoga"], [10, 11, 12]⟩ ∧
      some (15 : Int) ∉ tc10.map (fun r => r.user_id) ∧
      some (35 : Int) ∉ tc10.map (fun r => r.age) := by
  exact ⟨by with_unfolding_all decide, by with_unfolding_all decide, by with_unfolding_all decide⟩

/-- C1 (amended): the engine resamples the whole dataset onto one
global hourly grid with no grouping by entity (line 143): for every
input whose surviving rows are non-empty, the output Date column is
exactly the consecutive run of hours from the floor hour of the
globally earliest date to the floor hour of the globally latest date,
and the output carries a single User_ID value per grid hour -- one
merged row per hour, not one row per (entity_id, grid_timestamp). -/
theorem c1_amended_global_grid (raw : List RawRecord) (f : CleanFrame)
    (hok : pipeline raw = Except.ok f) (hne : survivors raw ≠ []) :
    f.date = List.range' (gridStart (survivors raw))
      (gridEnd (survivors raw) + 1 - gridStart (survivors raw)) ∧
    f.user_id.length = f.date.length := by
  obtain ⟨hu, _, hdate, _⟩ := pipeline_ok_elim raw f hok
  constructor
  · rw [hdate]
    have hl : hourList (survivors raw) ≠ [] := by
      intro hc
      apply hne
      cases hs : survivors raw with
      | nil => rfl
      | cons a l => rw [hs] at hc; simp [hourList] at hc
    obtain ⟨a, ha⟩ := foldMin_isSome _ hl
    obtain ⟨b, hb⟩ := foldMax_isSome _ hl
    unfold gridHours gridStart gridEnd
    rw [ha, hb]
    rfl
  · have h1 := astypeIntCol_ok_length _ _ _ hu
    rw [hdate, h1, numFill_length, aggFirst_length]

/-- C1 witness: the amended grid theorem evaluated on tc1. -/
theorem c1_amended_global_grid_witness :
    w1frame.date = List.range' (gridStart (survivors tc1))
      (gridEnd (survivors tc1) + 1 - gridStart (survivors tc1)) ∧
    w1frame.user_id.length = w1frame.date.length :=
  c1_amended_global_grid tc1 w1frame (by with_unfolding_all decide)
    (by with_unfolding_all decide)

/-- C2 (amended): the no-null postcondition holds only column by
column: if a measured numeric or categorical column has at least one
non-null value among the rows surviving date parsing, then that output
column is entirely non-null after interpolation, ffill and bfill
(lines 146-148); a column with no surviving value stays null (see the
counterexample). -/
theorem c2_amended_no_nulls (raw : List RawRecord) (f : CleanFrame)
    (hok : pipeline raw = Except.ok f)
    (hhr : ∃ r ∈ survivors raw, r.heart_rate.isSome)
    (hcal : ∃ r ∈ survivors raw, r.calories.isSome)
    (hwt : ∃ r ∈ survivors raw, r.workout_type.isSome) :
    (∀ y ∈ f.heart_rate, y.isSome) ∧ (∀ y ∈ f.calories, y.isSome) ∧
      ∀ y ∈ f.workout_type, y.isSome := by
  obtain ⟨_, _, _, _, _, _, hhrc, hcalc, hwtc, _⟩ := pipeline_ok_elim raw f hok
  refine ⟨?_, ?_, ?_⟩
  · rw [hhrc]
    obtain ⟨r, hr, hs⟩ := hhr
    obtain ⟨a, ha⟩ := Option.isSome_iff_exists.mp hs
    obtain ⟨b, hb⟩ := aggMean_exists_some (survivors raw) _ r hr a ha
    exact numFill_all_isSome _ b hb
  · rw [hcalc]
    obtain ⟨r, hr, hs⟩ := hcal
    obtain ⟨a, ha⟩ := Option.isSome_iff_exists.mp hs
    obtain ⟨b, hb⟩ := aggMean_exists_some (survivors raw) _ r hr a ha
    exact numFill_all_isSome _ b hb
  · rw [hwtc]
    obtain ⟨r, hr, hs⟩ := hwt
    obtain ⟨a, ha⟩ := Option.isSome_iff_exists.mp hs
    obtain ⟨b, hb⟩ := aggFirst_exists_some (survivors raw) _ r hr a ha
    exact strFill_all_isSome _ b hb

/-- C2 witness: the amended no-null theorem evaluated on w2raw. -/
theorem c2_amended_no_nulls_witness :
    (∀ y ∈ w2frame.heart_rate, y.isSome) ∧
      (∀ y ∈ w2frame.calories, y.isSome) ∧
      ∀ y ∈ w2frame.workout_type, y.isSome :=
  c2_amended_no_nulls w2raw w2frame (by with_unfolding_all decide)
    (by with_unfolding_all decide) (by with_unfolding_all decide)
    (by with_unfolding_all decide)

/-- C3 (amended): in a grid cell that contains records, the STATIC
columns (Height shown for the numeric statics, Gender for the string
statics) are reduced to the first non-null value among the records of
that cell -- never averaged -- and that value survives the fills into
the output row.  The cell's records may however belong to different
entities, and cells with no records get interpolated or propagated
values, so per-entity static invariance fails (see the
counterexample). -/
theorem c3_amended_first_in_cell (raw : List RawRecord) (f : CleanFrame)
    (i h : Nat) (a : Rat) (g : String)
    (hok : pipeline raw = Except.ok f)
    (hh : (gridHours (survivors raw))[i]? = some h)
    (hha : firstVal ((cellRecords (survivors raw) h).map fun r => r.height) =
      some a)
    (hhg : firstVal ((cellRecords (survivors raw) h).map fun r => r.gender) =
      some g) :
    f.height[i]? = some (some a) ∧ f.gender[i]? = some (some g) := by
  obtain ⟨_, _, _, hgen, hhei, _, _, _, _, _⟩ := pipeline_ok_elim raw f hok
  constructor
  · rw [hhei]
    apply numFill_getElem?_some
    simp only [aggFirst, List.getElem?_map, hh, Option.map_some']
    rw [hha]
  · rw [hgen]
    apply strFill_getElem?_some
    simp only [aggFirst, List.getElem?_map, hh, Option.map_some']
    rw [hhg]

/-- C3 witness: the amended first-in-cell theorem evaluated on tc3 at
the occupied 10:00 cell. -/
theorem c3_amended_first_in_cell_witness :
    w3frame.height[0]? = some (some 150) ∧
      w3frame.gender[0]? = some (some "F") :=
  c3_amended_first_in_cell tc3 w3frame 0 10 150 "F"
    (by with_unfolding_all decide) (by with_unfolding_all decide)
    (by with_unfolding_all decide) (by with_unfolding_all decide)

/-- C4 (amended): what the final astype(int) (lines 151-153) does
guarantee is integer representation, and for an input whose surviving
rows all carry one identifier value c the guarantee is exact: every
output User_ID equals the ingested integer c, never a float.  With
several entities an empty cell's identifier is instead an interpolated
and truncated value (see the counterexample and C10). -/
theorem c4_amended_constant_id (raw : List RawRecord) (f : CleanFrame)
    (c : Int) (hok : pipeline raw = Except.ok f)
    (hconst : ∀ r ∈ survivors raw, r.user_id = none ∨ r.user_id = some c)
    (hex : ∃ r ∈ survivors raw, r.user_id = some c) :
    ∀ y ∈ f.user_id, y = c := by
  obtain ⟨hu, _⟩ := pipeline_ok_elim raw f hok
  have hsub : ∀ x ∈ aggFirst (survivors raw) uidProj,
      x = none ∨ x = some (c : Rat) := by
    apply aggFirst_const
    intro r hr
    rcases hconst r hr with h1 | h1 <;> simp [uidProj, h1]
  obtain ⟨r, hr, hru⟩ := hex
  obtain ⟨b, hb⟩ := aggFirst_exists_some (survivors raw) uidProj r hr
    ((c : Rat)) (by simp [uidProj, hru])
  have hball : ∀ y ∈ numFill (aggFirst (survivors raw) uidProj), y.isSome :=
    numFill_all_isSome _ b hb
  have hsub2 := numFill_const _ _ hsub
  rw [astypeIntCol_ok_of_all _ _ hball] at hu
  have hmap := Except.ok.inj hu
  intro y hy
  rw [← hmap] at hy
  simp only [List.mem_map] at hy
  obtain ⟨x, hx, rfl⟩ := hy
  rcases hsub2 x hx with h1 | h1
  · have h2 := hball x hx
    rw [h1] at h2
    simp at h2
  · rw [h1]
    simp only [Option.getD_some]
    exact truncToInt_intCast c

/-- C4 witness: the amended constant-identifier theorem evaluated on
the single-entity input w4raw with id 7, at the first output row. -/
theorem c4_amended_constant_id_witness : w4frame.user_id.getD 0 0 = 7 :=
  c4_amended_constant_id w4raw w4frame 7 (by with_unfolding_all decide)
    (by with_unfolding_all decide) (by with_unfolding_all decide)
    (w4frame.user_id.getD 0 0) (by with_unfolding_all decide)

/-- C5 (amended): missing categorical values are repaired by
propagating neighbouring rows' values (cell-first reduction, then
ffill and bfill, line 148), never by a sentinel label: every non-null
Workout_Type value in the output was ingested verbatim in some raw
record, so a label such as "no activity recorded" can only appear in
the output if it was in the input. -/
theorem c5_amended_no_sentinel (raw : List RawRecord) (f : CleanFrame)
    (s : String) (hok : pipeline raw = Except.ok f)
    (hs : some s ∈ f.workout_type) :
    ∃ rr ∈ raw, rr.workout_type = some s := by
  obtain ⟨_, _, _, _, _, _, _, _, hwtc, _⟩ := pipeline_ok_elim raw f hok
  rw [hwtc] at hs
  rcases mem_strFill _ _ hs with h | h
  · cases h
  · simp only [aggFirst, List.mem_map] at h
    obtain ⟨h2, _, hfv⟩ := h
    have hmem := firstVal_mem _ _ hfv
    simp only [List.mem_map] at hmem
    obtain ⟨r, hrc, hrw⟩ := hmem
    have hr : r ∈ survivors raw := cellRecords_subset _ _ _ hrc
    obtain ⟨rr, hrr, hfields⟩ := survivors_mem_raw raw r hr
    refine ⟨rr, hrr, ?_⟩
    rw [hfields.2.2.2.2.2.2.2.2, hrw]

/-- C5 witness: the amended no-sentinel theorem evaluated on tc5 for
the value "run". -/
theorem c5_amended_no_sentinel_witness :
    ∃ rr ∈ tc5, rr.workout_type = some "run" :=
  c5_amended_no_sentinel tc5 w5frame "run" (by with_unfolding_all decide)
    (by with_unfolding_all decide)

/-- C6 (amended): the engine performs no schema validation and has no
SchemaError: its one failure mode is the astype(int) hardening of
lines 151-153, and a run fails exactly when some rows survive date
parsing but the User_ID column or the Age column has no non-null value
among them.  In particular a measured numeric column absent from all
records is processed silently (see the counterexample). -/
theorem c6_amended_no_schema_error (raw : List RawRecord) :
    (∃ e, pipeline raw = Except.error e) ↔
      ((survivors raw).isEmpty = false ∧
        ((survivors raw).all (fun r => r.user_id.isNone) = true ∨
          (survivors raw).all (fun r => r.age.isNone) = true)) := by
  constructor
  · rintro ⟨e, he⟩
    have hne : (survivors raw).isEmpty = false := by
      cases hs : survivors raw with
      | nil =>
        exfalso
        rcases pipeline_error_elim raw e he with hn | hn
        · apply hn
          intro y hy
          rw [hs] at hy
          simp [aggFirst, gridHours_nil, hourList] at hy
          simp [numFill, interpolateList, ffillList, bfillList, ffillAux,
            hy] at hy
        · apply hn
          intro y hy
          rw [hs] at hy
          simp [aggFirst, gridHours_nil, hourList] at hy
          simp [numFill, interpolateList, ffillList, bfillList, ffillAux,
            hy] at hy
      | cons a l => simp [hs]
    refine ⟨hne, ?_⟩
    rcases pipeline_error_elim raw e he with hn | hn
    · left
      rw [List.all_eq_true]
      intro r hr
      by_contra hc
      cases huid : r.user_id with
      | none => exact hc (by simp [huid])
      | some c =>
        obtain ⟨b, hb⟩ := aggFirst_exists_some (survivors raw) uidProj r hr
          ((c : Rat)) (by simp [uidProj, huid])
        exact hn (numFill_all_isSome _ b hb)
    · right
      rw [List.all_eq_true]
      intro r hr
      by_contra hc
      cases hage : r.age with
      | none => exact hc (by simp [hage])
      | some c =>
        obtain ⟨b, hb⟩ := aggFirst_exists_some (survivors raw) ageProj r hr
          ((c : Rat)) (by simp [ageProj, hage])
        exact hn (numFill_all_isSome _ b hb)
  · rintro ⟨hne, hcase⟩
    have hsne : survivors raw ≠ [] := by
      intro hc
      rw [hc] at hne
      simp at hne
    obtain ⟨r0, hr0⟩ := List.exists_mem_of_ne_nil (survivors raw) hsne
    have hg : floorHour r0.date ∈ gridHours (survivors raw) :=
      mem_gridHours _ r0 hr0
    rcases hcase with hall | hall
    · refine pipeline_error_of_uid raw ?_
      intro hforall
      have hallnone : ∀ y ∈ aggFirst (survivors raw) uidProj, y = none := by
        apply aggFirst_all_none
        intro r hr
        have h3 := List.all_eq_true.mp hall r hr
        cases huid : r.user_id with
        | none => simp [uidProj, huid]
        | some c => rw [huid] at h3; simp at h3
      have hlen : 0 < (numFill (aggFirst (survivors raw) uidProj)).length := by
        rw [numFill_length, aggFirst_length]
        exact List.length_pos_of_mem hg
      obtain ⟨y, hy⟩ := List.exists_mem_of_ne_nil _
        (List.length_pos.mp hlen)
      have h1 := hforall y hy
      have h2 := numFill_all_none _ hallnone y hy
      rw [h2] at h1
      simp at h1
    · refine pipeline_error_of_age raw ?_
      intro hforall
      have hallnone : ∀ y ∈ aggFirst (survivors raw) ageProj, y = none := by
        apply aggFirst_all_none
        intro r hr
        have h3 := List.all_eq_true.mp hall r hr
        cases hage : r.age with
        | none => simp [ageProj, hage]
        | some c => rw [hage] at h3; simp at h3
      have hlen : 0 < (numFill (aggFirst (survivors raw) ageProj)).length := by
        rw [numFill_length, aggFirst_length]
        exact List.length_pos_of_mem hg
      obtain ⟨y, hy⟩ := List.exists_mem_of_ne_nil _
        (List.length_pos.mp hlen)
      have h1 := hforall y hy
      have h2 := numFill_all_none _ hallnone y hy
      rw [h2] at h1
      simp at h1

/-- C7 (amended): a record whose timestamp fails to parse is dropped
and the run continues (lines 124-125), but nothing records how many
were dropped: inserting such a record anywhere leaves the pipeline's
entire result unchanged, so no diagnostic of the run can report the
discarded count. -/
theorem c7_amended_silent_drop (l t : List RawRecord) (r : RawRecord)
    (hr : r.date = none) : pipeline (l ++ r :: t) = pipeline (l ++ t) := by
  have hdrop : dropUnparsable (l ++ r :: t) = dropUnparsable (l ++ t) := by
    unfold dropUnparsable
    simp [List.filterMap_append, List.filterMap_cons, hr]
  unfold pipeline survivors
  rw [hdrop]

/-- C7 witness: the amended silent-drop theorem evaluated on a
concrete split. -/
theorem c7_amended_silent_drop_witness :
    pipeline (w7l ++ w7r :: w7t) = pipeline (w7l ++ w7t) :=
  c7_amended_silent_drop w7l w7t w7r (by with_unfolding_all decide)

/-- C9 (amended): Step 3 never mutates the uploaded raw records -- the
session's raw_df slot is identical after every run, successful or not
(line 120 works on a copy) -- but the run is not free of filesystem
effects: it creates the models directory when absent (lines 156-157),
and that is its only filesystem operation. -/
theorem c9_amended_no_mutation (b : Bool) (s : SessionState) :
    (runStep3 b s).1.raw_df = s.raw_df ∧
      ((runStep3 b s).2 = [] ∨
        (runStep3 b s).2 = [FsEffect.makedirs "models"]) := by
  unfold runStep3
  cases pipeline s.raw_df with
  | ok f => cases b <;> simp [pathEffects]
  | error e => simp

end FitPulse

